import Mathlib

/-!
Shallow embedding of the photocatalog service, translated from
src/photocatalog-api/server.js and src/photocatalog-api/index_nas.js.

Modelling conventions:
* A JavaScript string value that may be `undefined` is an `Option String`;
  JS truthiness of a string (`!s` tests) is `jsTruthy` (empty string and
  `undefined` are falsy).
* The relational tables are lists of rows (`List User`, `List CatEntry`);
  a `SELECT ... WHERE` is a `List.filter`/`List.find?` over the rows.
* bcrypt and jsonwebtoken are external libraries: handlers are
  parametrised over a hash function, a compare function and a verifier,
  with concrete model instances used for concrete evaluations.
* HTTP responses are modelled per route by small result types carrying
  the status code and the data the handler puts in the JSON body.
-/

namespace PhotoCatalog

/-- Truthiness of a possibly-undefined JS string: `undefined` and the
empty string are falsy, every other string truthy. -/
def jsTruthy : Option String → Bool
  | none => false
  | some s => !s.isEmpty

/-- JS strict equality between two possibly-undefined string values. -/
def jsStrictEq : Option String → Option String → Bool
  | some a, some b => a == b
  | none, none => true
  | _, _ => false

/-- A row of the `usuarios` table. -/
structure User where
  id : Nat
  usuario : String
  senha_hash : String
  nome_completo : Option String
deriving DecidableEq, Repr

/-- A row of the `catalogo_pecas` table. -/
structure CatEntry where
  cod_peca : String
  caminho_nas : String
  data_indexacao : Nat
deriving DecidableEq, Repr

/-- Outcome of a request-gating middleware: either the request is denied
with an HTTP status, or it passes through to the handler. -/
inductive Gate (α : Type) where
  | deny (status : Nat)
  | pass (v : α)
deriving DecidableEq, Repr

/-- Claims decoded from a session token (`jwt.sign { id, usuario }`). -/
structure JwtClaims where
  id : Nat
  usuario : String
deriving DecidableEq, Repr

/-- Token extraction of `verifyToken` (server.js lines 57-63): take the
`authorization` header; if that is falsy and the `token` query parameter
is truthy, take the query parameter; the result is the token if truthy. -/
def extractToken (authHeader queryToken : Option String) : Option String :=
  if jsTruthy authHeader then authHeader
  else if jsTruthy queryToken then queryToken
  else none

/-- Bearer-prefix stripping of `verifyToken` (server.js lines 70-72). -/
def stripBearer (t : String) : String :=
  if t.startsWith "Bearer " then t.drop 7 else t

/-- The `verifyToken` middleware (server.js lines 55-83): 401 when no
token is present; 403 when `jwt.verify` fails on the stripped token;
otherwise pass with the decoded claims attached to the request. -/
def verifyToken (jwtVerify : String → Option JwtClaims)
    (authHeader queryToken : Option String) : Gate JwtClaims :=
  match extractToken authHeader queryToken with
  | none => .deny 401
  | some t =>
    match jwtVerify (stripBearer t) with
    | none => .deny 403
    | some claims => .pass claims

/-- The `verifyAdminKey` middleware (server.js lines 86-94): deny 403
when the `x-admin-key` header is falsy or not strictly equal to the
configured `ADMIN_API_KEY`; otherwise pass. -/
def verifyAdminKey (adminApiKey : Option String)
    (adminKeyHeader : Option String) : Gate Unit :=
  if !jsTruthy adminKeyHeader || !jsStrictEq adminKeyHeader adminApiKey then
    .deny 403
  else
    .pass ()

/-- Result of the `POST /api/login` handler. -/
inductive LoginResult where
  | badRequest
  | unauthorized
  | internalError
  | ok (message : String) (token : String)
deriving DecidableEq, Repr

/-- HTTP status of a `LoginResult`. -/
def LoginResult.status : LoginResult → Nat
  | .badRequest => 400
  | .unauthorized => 401
  | .internalError => 500
  | .ok _ _ => 200

/-- The `POST /api/login` handler (server.js lines 137-183): 400 on a
missing field; look the user up by login name; 401 when no row matches;
401 when `bcrypt.compare` rejects the password; otherwise sign a token
and answer with a welcome message using the display name if present. -/
def loginHandler (bcompare : String → String → Bool)
    (jwtSign : Nat → String → String) (usuarios : List User)
    (usuario senha : Option String) : LoginResult :=
  if !jsTruthy usuario || !jsTruthy senha then .badRequest
  else
    let u := usuario.getD ""
    let s := senha.getD ""
    match (usuarios.filter (fun r => r.usuario == u)).head? with
    | none => .unauthorized
    | some user =>
      if bcompare s user.senha_hash then
        .ok ("Bem-vindo, " ++ (match user.nome_completo with
              | some n => if n.isEmpty then user.usuario else n
              | none => user.usuario) ++ "!")
          (jwtSign user.id user.usuario)
      else .unauthorized

/-- Result of the `POST /api/change-password` handler, paired below with
the resulting `usuarios` table. -/
inductive ChangePwResult where
  | badRequest
  | notFound
  | unauthorized
  | ok (message : String)
deriving DecidableEq, Repr

/-- HTTP status of a `ChangePwResult`. -/
def ChangePwResult.status : ChangePwResult → Nat
  | .badRequest => 400
  | .notFound => 404
  | .unauthorized => 401
  | .ok _ => 200

/-- The `POST /api/change-password` handler (server.js lines 306-343),
reached through `verifyToken` with `userId` taken from the token claims:
400 on a missing field; fetch the hash of the caller row by id, 404 when
it is gone; 401 when `bcrypt.compare` rejects the old password; otherwise
hash the new password and update the row. Returns the response together
with the table after the handler ran. -/
def changePasswordHandler (bcompare : String → String → Bool)
    (bhash : String → String) (usuarios : List User) (userId : Nat)
    (senhaAntiga novaSenha : Option String) :
    ChangePwResult × List User :=
  if !jsTruthy senhaAntiga || !jsTruthy novaSenha then (.badRequest, usuarios)
  else
    let old := senhaAntiga.getD ""
    let new := novaSenha.getD ""
    match (usuarios.filter (fun r => r.id == userId)).head? with
    | none => (.notFound, usuarios)
    | some user =>
      if bcompare old user.senha_hash then
        (.ok "Senha alterada com sucesso!",
         usuarios.map (fun r =>
           if r.id == userId then { r with senha_hash := bhash new } else r))
      else
        (.unauthorized, usuarios)

/-- Concrete stand-in for the external `bcrypt.hash` primitive (salt
fixed, deterministic), used to evaluate handlers on concrete inputs. -/
def bcryptHashModel (p : String) : String := "H:" ++ p

/-- Concrete stand-in for `bcrypt.compare`: accepts exactly the password
whose model hash is stored. -/
def bcryptCompareModel (p h : String) : Bool := h == bcryptHashModel p

/-- Result of the `POST /api/admin/reset-password` handler, paired below
with the resulting `usuarios` table. -/
inductive AdminResetResult where
  | badRequest
  | notFound
  | ok (message : String)
deriving DecidableEq, Repr

/-- HTTP status of an `AdminResetResult`. -/
def AdminResetResult.status : AdminResetResult → Nat
  | .badRequest => 400
  | .notFound => 404
  | .ok _ => 200

/-- The `POST /api/admin/reset-password` handler (server.js lines
346-376), reached through `verifyAdminKey`: 400 on a missing field;
hash the new password and run
`UPDATE usuarios SET senha_hash = $1 WHERE usuario = $2`; answer 404
when the update matched no row, 200 otherwise. The returned table is the
table after the update ran. -/
def adminResetHandler (bhash : String → String) (usuarios : List User)
    (usuario novaSenha : Option String) : AdminResetResult × List User :=
  if !jsTruthy usuario || !jsTruthy novaSenha then (.badRequest, usuarios)
  else
    let target := usuario.getD ""
    let updated := usuarios.map (fun r =>
      if r.usuario == target then { r with senha_hash := bhash (novaSenha.getD "") } else r)
    let rowCount := (usuarios.filter (fun r => r.usuario == target)).length
    if rowCount == 0 then (.notFound, updated)
    else (.ok ("Senha para '" ++ target ++ "' resetada com sucesso."), updated)

/-- Split a character list on a separator character, keeping empty
groups, mirroring a split of the underlying string. -/
def splitOnChar (sep : Char) : List Char → List (List Char)
  | [] => [[]]
  | c :: rest =>
    if c = sep then [] :: splitOnChar sep rest
    else
      match splitOnChar sep rest with
      | [] => [[c]]
      | g :: gs => (c :: g) :: gs

/-- Rejoin path segments with `/` separators. -/
def joinSegs : List (List Char) → List Char
  | [] => []
  | [s] => s
  | s :: rest => s ++ '/' :: joinSegs rest

/-- Normalisation of the segments of an absolute posix path, as
performed by the Node `path.join` primitive: empty and `.` segments
vanish, `..` pops the previous segment (and is discarded at the root). -/
def normSegsAbs (segs : List (List Char)) : List (List Char) :=
  segs.foldl (fun acc s =>
    if s = [] || s = ['.'] then acc
    else if s = ['.', '.'] then acc.dropLast
    else acc ++ [s]) []

/-- Normalisation of the segments of a relative posix path: as in the
absolute case, except that a `..` that cannot pop anything is kept. -/
def normSegsRel (segs : List (List Char)) : List (List Char) :=
  segs.foldl (fun acc s =>
    if s = [] || s = ['.'] then acc
    else if s = ['.', '.'] then
      if acc ≠ [] && acc.getLast? ≠ some ['.', '.'] then acc.dropLast
      else acc ++ [['.', '.']]
    else acc ++ [s]) []

/-- The Node posix `path.join(a, b)` primitive: concatenate the two
parts with a separator and normalise `.` and `..` segments (an empty
result collapses to `.`; trailing-separator preservation, irrelevant to
the claims, is not modelled). -/
def pathJoin (a b : String) : String :=
  let joined := if a = "" then b else if b = "" then a else a ++ "/" ++ b
  match joined.data with
  | [] => "."
  | c :: cs =>
    if c = '/' then
      match normSegsAbs (splitOnChar '/' (c :: cs)) with
      | [] => "/"
      | parts => String.mk ('/' :: joinSegs parts)
    else
      match normSegsRel (splitOnChar '/' (c :: cs)) with
      | [] => "."
      | parts => String.mk (joinSegs parts)

/-- String prefix test over the character lists (the JS
`String.startsWith` counterpart, kept kernel-reducible). -/
def jsStartsWith (s pre : String) : Bool :=
  pre.data.isPrefixOf s.data

/-- Whether path `p` lies inside directory `dir` (equal to it or below
it). -/
def isWithin (dir p : String) : Bool :=
  p == dir || jsStartsWith p (dir ++ "/")

/-- The lookup `SELECT caminho_nas FROM catalogo_pecas WHERE
cod_peca = $1` followed by taking the first row. -/
def findCaminho (catalog : List CatEntry) (cod : String) : Option String :=
  ((catalog.filter (fun e => e.cod_peca == cod)).head?).map (fun e => e.caminho_nas)

/-- ASCII lowercasing of one character. -/
def charLower (c : Char) : Char :=
  if 'A' ≤ c && c ≤ 'Z' then Char.ofNat (c.toNat + 32) else c

/-- Extension of a filename, lowercased, as the mime-types library
extracts it: the part after the last dot (empty when there is none). -/
def extOf (f : String) : String :=
  match splitOnChar '.' f.data with
  | [] => ""
  | [_] => ""
  | parts => String.mk ((parts.getLast?.getD []).map charLower)

/-- Concrete stand-in for the external `mime.lookup` primitive over the
extensions appearing in the claims: media type from the filename
extension, `none` (JS `false`) when unknown. -/
def mimeLookupModel (f : String) : Option String :=
  match extOf f with
  | "jpg" => some "image/jpeg"
  | "jpeg" => some "image/jpeg"
  | "png" => some "image/png"
  | "gif" => some "image/gif"
  | "bmp" => some "image/bmp"
  | "webp" => some "image/webp"
  | "txt" => some "text/plain"
  | "pdf" => some "application/pdf"
  | _ => none

/-- Result of the `GET /api/photo/:codPeca/:filename` handler: 404, or a
stream of the bytes at `streamPath` under `contentType`. -/
inductive PhotoResult where
  | notFound
  | stream (contentType streamPath : String)
deriving DecidableEq, Repr

/-- The `GET /api/photo/:codPeca/:filename` handler (server.js lines
259-303), reached through `verifyToken`: look the directory path up by
part code, 404 when absent; otherwise set the content type from the
filename extension (defaulting to `image/jpeg`) and stream the file at
`path.join(caminho_nas, filename)`. -/
def photoHandler (mimeLookup : String → Option String) (catalog : List CatEntry)
    (codPeca filename : String) : PhotoResult :=
  match findCaminho catalog codPeca with
  | none => .notFound
  | some caminho =>
    .stream ((mimeLookup filename).getD "image/jpeg") (pathJoin caminho filename)

/-- One element of the `fotos` array answered by the search route. -/
structure PhotoRef where
  filename : String
  url : String
deriving DecidableEq, Repr

/-- Result of the `GET /api/search` handler. -/
inductive SearchResult where
  | badRequest
  | notFound
  | internalError
  | ok (cod_peca : String) (fotos : List PhotoRef)
deriving DecidableEq, Repr

/-- The `GET /api/search` handler (server.js lines 207-256), reached
through `verifyToken`: 400 when the `cod_peca` query parameter is
falsy; look the directory path up by part code, 404 when absent; list
the directory (500 on an I/O failure); keep the filenames whose
inferred media type is truthy and starts with `image/`; answer them
paired with the synthesized url `/api/photo/{cod_peca}/{file}`. -/
def searchHandler (mimeLookup : String → Option String)
    (catalog : List CatEntry) (listdir : String → Option (List String))
    (cod_peca : Option String) : SearchResult :=
  if !jsTruthy cod_peca then .badRequest
  else
    let cod := cod_peca.getD ""
    match findCaminho catalog cod with
    | none => .notFound
    | some caminho =>
      match listdir caminho with
      | none => .internalError
      | some files =>
        .ok cod ((files.filter (fun file =>
            match mimeLookup file with
            | some m => jsStartsWith m "image/"
            | none => false)).map (fun file =>
          { filename := file, url := "/api/photo/" ++ cod ++ "/" ++ file }))

/-- The `GET /api/catalog/all` handler (server.js lines 188-203),
reached through `verifyToken`: run `SELECT cod_peca FROM catalogo_pecas
ORDER BY cod_peca ASC` (modelled as sorting the projected column) and
answer the plain array of codes. -/
def catalogAllHandler (catalog : List CatEntry) : List String :=
  (catalog.map (fun e => e.cod_peca)).insertionSort (· ≤ ·)

/-- Outcome of `fs.stat` on one root entry: a directory, a
non-directory, or a thrown inspection error. -/
inductive StatResult where
  | isDir
  | isFile
  | statError
deriving DecidableEq, Repr

/-- The upsert of index_nas.js lines 61-70: `INSERT INTO catalogo_pecas
(cod_peca, caminho_nas) VALUES ($1, $2) ON CONFLICT (cod_peca) DO
UPDATE SET caminho_nas = EXCLUDED.caminho_nas, data_indexacao =
CURRENT_TIMESTAMP`. A conflicting row is overwritten with the new path
and the current timestamp `t`; otherwise a fresh row is appended (the
column default stamps `t`). -/
def upsertEntry (catalog : List CatEntry) (cod caminho : String) (t : Nat) :
    List CatEntry :=
  if catalog.any (fun e => e.cod_peca == cod) then
    catalog.map (fun e => if e.cod_peca == cod then ⟨cod, caminho, t⟩ else e)
  else catalog ++ [⟨cod, caminho, t⟩]

/-- One fan-out task of `startIndexing` (index_nas.js lines 47-78):
stat `path.join(NAS_ROOT_PATH, itemName)`; on a directory whose store
upsert succeeds, upsert and count the item as indexed; on a directory
whose upsert throws, count it as errored; on a non-directory, do
nothing; on a stat failure, count it as errored. The accumulator is
(catalog, indexedCount, errorCount). -/
def processItem (rootPath : String) (stat : String → StatResult)
    (dbOk : String → Bool) (t : Nat) (acc : List CatEntry × Nat × Nat)
    (itemName : String) : List CatEntry × Nat × Nat :=
  match stat (pathJoin rootPath itemName) with
  | .isDir =>
    if dbOk itemName then
      (upsertEntry acc.1 itemName (pathJoin rootPath itemName) t,
       acc.2.1 + 1, acc.2.2)
    else (acc.1, acc.2.1, acc.2.2 + 1)
  | .isFile => acc
  | .statError => (acc.1, acc.2.1, acc.2.2 + 1)

/-- The `startIndexing` run (index_nas.js lines 28-94) over the listed
root entries: the per-item tasks all run and are awaited; as each task
touches only its own part code and the two counters, the concurrent
fan-out is linearised as a fold over the listing order. -/
def startIndexing (rootPath : String) (stat : String → StatResult)
    (dbOk : String → Bool) (items : List String) (t : Nat)
    (catalog : List CatEntry) : List CatEntry × Nat × Nat :=
  items.foldl (processItem rootPath stat dbOk t) (catalog, 0, 0)

/-- The catalog entries of one indexer task, stripped of the counter
bookkeeping of `processItem`: only a successfully statted directory
whose upsert succeeds changes the catalog. -/
def stepCatalog (rootPath : String) (stat : String → StatResult)
    (dbOk : String → Bool) (t : Nat) (catalog : List CatEntry)
    (itemName : String) : List CatEntry :=
  match stat (pathJoin rootPath itemName) with
  | .isDir =>
    if dbOk itemName then
      upsertEntry catalog itemName (pathJoin rootPath itemName) t
    else catalog
  | .isFile => catalog
  | .statError => catalog

/-- The last-indexed timestamp lookup of a part code (first matching
row of `catalogo_pecas`). -/
def findTs (catalog : List CatEntry) (cod : String) : Option Nat :=
  ((catalog.filter (fun e => e.cod_peca == cod)).head?).map (fun e => e.data_indexacao)

/-- C3: for every pair of login requests with non-empty fields, one whose
login name matches no stored user and one whose login name matches a user
but whose password fails the hash comparison, both responses have status
401, so the two failure causes are indistinguishable by status. -/
theorem login_unknown_user_and_bad_password_same_status
    (bcompare : String → String → Bool) (jwtSign : Nat → String → String)
    (usuarios : List User) (u1 s1 u2 s2 : String)
    (hu1 : u1 ≠ "") (hs1 : s1 ≠ "") (hu2 : u2 ≠ "") (hs2 : s2 ≠ "")
    (hnone : usuarios.filter (fun r => r.usuario == u1) = [])
    (user : User)
    (hfound : (usuarios.filter (fun r => r.usuario == u2)).head? = some user)
    (hbad : bcompare s2 user.senha_hash = false) :
    (loginHandler bcompare jwtSign usuarios (some u1) (some s1)).status = 401 ∧
    (loginHandler bcompare jwtSign usuarios (some u2) (some s2)).status = 401 := by
  constructor
  · simp only [loginHandler, jsTruthy, Bool.not_eq_true']
    rw [if_neg]
    · simp [hnone, LoginResult.status]
    · simp [String.isEmpty_iff, hu1, hs1]
  · simp only [loginHandler, jsTruthy, Bool.not_eq_true']
    rw [if_neg]
    · simp [hfound, hbad, LoginResult.status]
    · simp [String.isEmpty_iff, hu2, hs2]

/-- Witness for C3 at a concrete store and concrete requests. -/
theorem login_unknown_user_and_bad_password_same_status_witness :
    (loginHandler (fun p h => h == "H:" ++ p) (fun _ _ => "tok")
      [⟨1, "alice", "H:pw", none⟩] (some "bob") (some "x")).status = 401 ∧
    (loginHandler (fun p h => h == "H:" ++ p) (fun _ _ => "tok")
      [⟨1, "alice", "H:pw", none⟩] (some "alice") (some "wrong")).status = 401 :=
  login_unknown_user_and_bad_password_same_status
    (fun p h => h == "H:" ++ p) (fun _ _ => "tok")
    [⟨1, "alice", "H:pw", none⟩] "bob" "x" "alice" "wrong"
    (by decide) (by decide) (by decide) (by decide)
    (by decide) ⟨1, "alice", "H:pw", none⟩ (by decide) (by decide)

/-- C4: the token gate denies with 401 exactly when no token is present
in the authorization header or the token query parameter, denies with 403
exactly when a token is present but the verifier rejects it, and these
are the only denial statuses. -/
theorem verifyToken_status_characterisation
    (jwtVerify : String → Option JwtClaims) (authHeader queryToken : Option String) :
    (verifyToken jwtVerify authHeader queryToken = .deny 401 ↔
      extractToken authHeader queryToken = none) ∧
    (verifyToken jwtVerify authHeader queryToken = .deny 403 ↔
      ∃ t, extractToken authHeader queryToken = some t ∧
        jwtVerify (stripBearer t) = none) ∧
    (∀ s, verifyToken jwtVerify authHeader queryToken = .deny s →
      s = 401 ∨ s = 403) := by
  unfold verifyToken
  cases hex : extractToken authHeader queryToken with
  | none => simp
  | some t =>
    cases hv : jwtVerify (stripBearer t) with
    | none => simp [hv]
    | some c => simp [hv]

/-- C10: when `ADMIN_API_KEY` is unconfigured (`undefined`), the admin
gate denies every request with 403, whatever the client sends in the
`x-admin-key` header (including no header at all). -/
theorem verifyAdminKey_unconfigured_always_denies
    (adminKeyHeader : Option String) :
    verifyAdminKey none adminKeyHeader = .deny 403 := by
  cases adminKeyHeader with
  | none => rfl
  | some k => simp [verifyAdminKey, jsStrictEq]

/-- C5: a change-password request whose old password fails the hash
comparison against the caller row answers 401 and leaves the `usuarios`
table exactly as it was: no update runs. -/
theorem changePassword_wrong_old_password_leaves_store
    (bcompare : String → String → Bool) (bhash : String → String)
    (usuarios : List User) (userId : Nat) (old new : String)
    (hold : old ≠ "") (hnew : new ≠ "") (user : User)
    (hfound : (usuarios.filter (fun r => r.id == userId)).head? = some user)
    (hbad : bcompare old user.senha_hash = false) :
    changePasswordHandler bcompare bhash usuarios userId (some old) (some new)
      = (.unauthorized, usuarios) := by
  simp only [changePasswordHandler, jsTruthy, Bool.not_eq_true']
  rw [if_neg]
  · simp [hfound, hbad]
  · simp [String.isEmpty_iff, hold, hnew]

/-- Witness for C5 at a concrete store and request. -/
theorem changePassword_wrong_old_password_leaves_store_witness :
    changePasswordHandler (fun p h => h == "H:" ++ p) (fun p => "H:" ++ p)
      [⟨1, "alice", "H:pw", none⟩] 1 (some "nope") (some "fresh")
      = (.unauthorized, [⟨1, "alice", "H:pw", none⟩]) :=
  changePassword_wrong_old_password_leaves_store
    (fun p h => h == "H:" ++ p) (fun p => "H:" ++ p)
    [⟨1, "alice", "H:pw", none⟩] 1 "nope" "fresh"
    (by decide) (by decide) ⟨1, "alice", "H:pw", none⟩ (by decide) (by decide)

/-- C6 counterexample: with a valid admin key, resetting the password of
an existing user to the very password already in use succeeds, and the
old password still authenticates via Login afterwards (status 200, not a
failure) — so the reset does not always invalidate the old password. -/
theorem adminReset_same_password_still_authenticates :
    verifyAdminKey (some "k") (some "k") = .pass () ∧
    (adminResetHandler bcryptHashModel [⟨1, "alice", bcryptHashModel "pw", none⟩]
      (some "alice") (some "pw")).1.status = 200 ∧
    (loginHandler bcryptCompareModel (fun _ _ => "tok")
      (adminResetHandler bcryptHashModel [⟨1, "alice", bcryptHashModel "pw", none⟩]
        (some "alice") (some "pw")).2
      (some "alice") (some "pw")).status = 200 := by
  decide

/-- The reset update rewrites exactly the rows of the target login, so
filtering the updated table for the target commutes with the rewrite. -/
theorem head_filter_reset (usuarios : List User) (target h : String) :
    ((usuarios.map (fun r =>
        if r.usuario == target then { r with senha_hash := h } else r)).filter
      (fun r => r.usuario == target)).head? =
    ((usuarios.filter (fun r => r.usuario == target)).head?).map
      (fun r => { r with senha_hash := h }) := by
  induction usuarios with
  | nil => rfl
  | cons u us ih =>
    by_cases hu : u.usuario = target
    · simp [List.filter_cons, hu]
    · have hfu : (if u.usuario == target then
          ({ u with senha_hash := h } : User) else u) = u := by
        simp [hu]
      have hpu : (u.usuario == target) = false := by simp [hu]
      rw [List.map_cons, hfu, List.filter_cons, List.filter_cons, hpu]
      simp only [Bool.false_eq_true, if_false]
      exact ih

/-- C6 (amended): for every admin reset request passing the admin gate
with both fields non-empty: when the target login matches no row the
handler answers 404 and the table is unchanged; when it matches, the
handler answers 200, every row of that login carries the hash of the
new password, and the old password no longer authenticates via Login
provided it fails the hash comparison against the new hash (which a
reset to the identical password does not guarantee). -/
theorem adminReset_notFound_or_invalidates
    (bcompare : String → String → Bool) (bhash : String → String)
    (jwtSign : Nat → String → String) (cfg hdr : Option String)
    (usuarios : List User) (target new old : String)
    (hgate : verifyAdminKey cfg hdr = .pass ())
    (htarget : target ≠ "") (hnew : new ≠ "") :
    (usuarios.filter (fun r => r.usuario == target) = [] →
      adminResetHandler bhash usuarios (some target) (some new) = (.notFound, usuarios)) ∧
    ((usuarios.filter (fun r => r.usuario == target)) ≠ [] →
      (adminResetHandler bhash usuarios (some target) (some new)).1.status = 200 ∧
      (∀ r ∈ (adminResetHandler bhash usuarios (some target) (some new)).2,
        r.usuario = target → r.senha_hash = bhash new) ∧
      (old ≠ "" → bcompare old (bhash new) = false →
        loginHandler bcompare jwtSign
          (adminResetHandler bhash usuarios (some target) (some new)).2
          (some target) (some old) = .unauthorized)) := by
  have hne : (!jsTruthy (some target) || !jsTruthy (some new)) = false := by
    simp [jsTruthy, Bool.eq_false_iff, String.isEmpty_iff, htarget, hnew]
  constructor
  · intro hnil
    have hid : usuarios.map (fun r =>
        if r.usuario == target then { r with senha_hash := bhash new } else r) = usuarios := by
      have hmem := List.filter_eq_nil_iff.mp hnil
      calc usuarios.map (fun r =>
            if r.usuario == target then { r with senha_hash := bhash new } else r)
          = usuarios.map id := by
            apply List.map_congr_left
            intro r hr
            simp [hmem r hr]
        _ = usuarios := List.map_id usuarios
    have hid' := hid
    simp only [beq_iff_eq] at hid'
    simp only [adminResetHandler, Option.getD_some, hne, Bool.false_eq_true, if_false, hnil]
    simp [hid']
  · intro hsome
    have hcount : ((usuarios.filter (fun r => r.usuario == target)).length == 0) = false := by
      simp [Bool.eq_false_iff, List.length_eq_zero, hsome]
    refine ⟨?_, ?_, ?_⟩
    · simp only [adminResetHandler, Option.getD_some, hne, Bool.false_eq_true, if_false,
        hcount]
      rfl
    · intro r hr hru
      simp only [adminResetHandler, Option.getD_some, hne, Bool.false_eq_true, if_false,
        hcount] at hr
      rcases List.mem_map.mp hr with ⟨r0, _, hmap⟩
      by_cases h0 : (r0.usuario == target) = true
      · simp only [h0, if_true] at hmap
        rw [← hmap]
      · simp only [h0, Bool.false_eq_true, if_false] at hmap
        rw [← hmap] at hru
        exact absurd (by simp [hru] : (r0.usuario == target) = true) h0
    · intro hold hbad
      rcases hu0 : (usuarios.filter (fun r => r.usuario == target)).head? with _ | u0
      · exact absurd (by simpa using hu0) hsome
      · simp only [adminResetHandler, Option.getD_some, hne, Bool.false_eq_true, if_false,
          hcount]
        simp only [loginHandler, jsTruthy, Option.getD_some, Bool.not_eq_true']
        rw [if_neg (by simp [String.isEmpty_iff, htarget, hold])]
        rw [head_filter_reset, hu0]
        simp [hbad]

/-- Witness for the amended C6 at a concrete store and request. -/
theorem adminReset_notFound_or_invalidates_witness :
    (adminResetHandler bcryptHashModel [⟨1, "alice", bcryptHashModel "pw", none⟩]
      (some "alice") (some "new")).1.status = 200 ∧
    (∀ r ∈ (adminResetHandler bcryptHashModel [⟨1, "alice", bcryptHashModel "pw", none⟩]
        (some "alice") (some "new")).2,
      r.usuario = "alice" → r.senha_hash = bcryptHashModel "new") ∧
    loginHandler bcryptCompareModel (fun _ _ => "tok")
      (adminResetHandler bcryptHashModel [⟨1, "alice", bcryptHashModel "pw", none⟩]
        (some "alice") (some "new")).2
      (some "alice") (some "pw") = .unauthorized :=
  have h := (adminReset_notFound_or_invalidates bcryptCompareModel bcryptHashModel
    (fun _ _ => "tok") (some "k") (some "k")
    [⟨1, "alice", bcryptHashModel "pw", none⟩] "alice" "new" "pw"
    (by decide) (by decide) (by decide)).2 (by decide)
  ⟨h.1, h.2.1, h.2.2 (by decide) (by decide)⟩

/-- C1: the handler joins the stored directory path with the requested
filename without any traversal check, so a filename containing `..`
segments resolves and streams a path outside the indexed directory:
with `PN-100` indexed at `/nas/PN-100`, requesting `../secret.jpg`
streams `/nas/secret.jpg`, which is not within `/nas/PN-100`. -/
theorem streamPhoto_traversal_escapes_directory :
    photoHandler mimeLookupModel [⟨"PN-100", "/nas/PN-100", 0⟩]
      "PN-100" "../secret.jpg" = .stream "image/jpeg" "/nas/secret.jpg" ∧
    isWithin "/nas/PN-100" "/nas/secret.jpg" = false := by
  decide

/-- C7: on an indexed part code whose directory listing succeeds, the
search route answers 200 and its photo list holds exactly the listed
filenames whose inferred media type starts with `image/`, each paired
with the url `/api/photo/{cod}/{filename}` pointing at the photo-stream
route (the spec writes every route without the common `/api` mount
prefix). -/
theorem search_lists_exactly_image_files
    (mimeLookup : String → Option String) (catalog : List CatEntry)
    (listdir : String → Option (List String)) (cod caminho : String)
    (files : List String) (hcod : cod ≠ "")
    (hfind : findCaminho catalog cod = some caminho)
    (hls : listdir caminho = some files) :
    ∃ fotos, searchHandler mimeLookup catalog listdir (some cod) = .ok cod fotos ∧
      ∀ p : PhotoRef, p ∈ fotos ↔
        p.filename ∈ files ∧
        (∃ m, mimeLookup p.filename = some m ∧ jsStartsWith m "image/" = true) ∧
        p.url = "/api/photo/" ++ cod ++ "/" ++ p.filename := by
  have hne : (!jsTruthy (some cod)) = false := by
    simp [jsTruthy, Bool.eq_false_iff, String.isEmpty_iff, hcod]
  refine ⟨(files.filter (fun file =>
      match mimeLookup file with
      | some m => jsStartsWith m "image/"
      | none => false)).map (fun file =>
    { filename := file, url := "/api/photo/" ++ cod ++ "/" ++ file }), ?_, ?_⟩
  · simp only [searchHandler, Option.getD_some, hne, Bool.false_eq_true, if_false,
      hfind, hls]
  · intro p
    constructor
    · intro hp
      rcases List.mem_map.mp hp with ⟨f, hf, hmap⟩
      rcases List.mem_filter.mp hf with ⟨hfile, hcond⟩
      rcases hm : mimeLookup f with _ | m
      · rw [hm] at hcond
        exact absurd hcond (by simp)
      · rw [hm] at hcond
        subst hmap
        exact ⟨hfile, ⟨m, hm, hcond⟩, rfl⟩
    · intro ⟨hfile, ⟨m, hm, hsw⟩, hurl⟩
      apply List.mem_map.mpr
      refine ⟨p.filename, List.mem_filter.mpr ⟨hfile, ?_⟩, ?_⟩
      · rw [hm]
        exact hsw
      · cases p with
        | mk fn u => simp at hurl; simp [hurl]

/-- Witness for C7 at the spec scenario: `PN-100` lists `a.jpg`,
`b.png`, `notes.txt`; the two images are answered with their urls and
`notes.txt` is excluded. -/
theorem search_lists_exactly_image_files_witness :
    searchHandler mimeLookupModel [⟨"PN-100", "/nas/PN-100", 0⟩]
      (fun p => if p = "/nas/PN-100" then some ["a.jpg", "b.png", "notes.txt"] else none)
      (some "PN-100") =
      .ok "PN-100" [⟨"a.jpg", "/api/photo/PN-100/a.jpg"⟩,
        ⟨"b.png", "/api/photo/PN-100/b.png"⟩] ∧
    (∃ fotos, searchHandler mimeLookupModel [⟨"PN-100", "/nas/PN-100", 0⟩]
        (fun p => if p = "/nas/PN-100" then some ["a.jpg", "b.png", "notes.txt"] else none)
        (some "PN-100") = .ok "PN-100" fotos ∧
      ∀ p : PhotoRef, p ∈ fotos ↔
        p.filename ∈ ["a.jpg", "b.png", "notes.txt"] ∧
        (∃ m, mimeLookupModel p.filename = some m ∧ jsStartsWith m "image/" = true) ∧
        p.url = "/api/photo/" ++ "PN-100" ++ "/" ++ p.filename) :=
  ⟨by decide,
   search_lists_exactly_image_files mimeLookupModel
     [⟨"PN-100", "/nas/PN-100", 0⟩]
     (fun p => if p = "/nas/PN-100" then some ["a.jpg", "b.png", "notes.txt"] else none)
     "PN-100" "/nas/PN-100" ["a.jpg", "b.png", "notes.txt"]
     (by decide) (by decide) (by decide)⟩

/-- C8: the catalog listing is a permutation of all part codes of the
Catalog Index, sorted in ascending lexicographic order. -/
theorem catalogAll_sorted_permutation (catalog : List CatEntry) :
    (catalogAllHandler catalog).Perm (catalog.map (fun e => e.cod_peca)) ∧
    (catalogAllHandler catalog).Sorted (· ≤ ·) :=
  ⟨List.perm_insertionSort _ _, List.sorted_insertionSort _ _⟩

/-- C2 counterexample: on a root holding directories `PN-100` and
`PN-200` and the regular file `readme.txt`, with every filesystem and
store operation succeeding, the run reports indexed-count 2 but
skipped-count 0, not 1: a non-directory entry whose stat succeeds is
ignored without touching any counter (index_nas.js lines 50-77). -/
theorem indexer_example_skipped_count_not_one :
    (startIndexing "/nas"
      (fun p => if p = "/nas/PN-100" || p = "/nas/PN-200" then .isDir else .isFile)
      (fun _ => true) ["PN-100", "PN-200", "readme.txt"] 7 []).2.1 = 2 ∧
    (startIndexing "/nas"
      (fun p => if p = "/nas/PN-100" || p = "/nas/PN-200" then .isDir else .isFile)
      (fun _ => true) ["PN-100", "PN-200", "readme.txt"] 7 []).2.2 = 0 ∧
    (startIndexing "/nas"
      (fun p => if p = "/nas/PN-100" || p = "/nas/PN-200" then .isDir else .isFile)
      (fun _ => true) ["PN-100", "PN-200", "readme.txt"] 7 []).2.2 ≠ 1 := by
  decide

/-- C2 (amended): on that same root the run creates exactly the two
entries `PN-100` and `PN-200` (at their joined paths, stamped with the
run time) and reports indexed-count 2 and skipped-count 0 — the
error counter only counts entries whose inspection or upsert failed,
and a regular file inspected successfully is skipped silently. -/
theorem indexer_example_two_indexed_zero_skipped :
    startIndexing "/nas"
      (fun p => if p = "/nas/PN-100" || p = "/nas/PN-200" then .isDir else .isFile)
      (fun _ => true) ["PN-100", "PN-200", "readme.txt"] 7 [] =
    ([⟨"PN-100", "/nas/PN-100", 7⟩, ⟨"PN-200", "/nas/PN-200", 7⟩], 2, 0) := by
  decide

/-- The catalog component of an indexer run ignores the counters: it is
the fold of the catalog-only steps. -/
theorem foldl_processItem_catalog (rootPath : String) (stat : String → StatResult)
    (dbOk : String → Bool) (t : Nat) :
    ∀ (items : List String) (c : List CatEntry) (i e : Nat),
    (items.foldl (processItem rootPath stat dbOk t) (c, i, e)).1 =
      items.foldl (stepCatalog rootPath stat dbOk t) c := by
  intro items
  induction items with
  | nil => intro c i e; rfl
  | cons a as ih =>
    intro c i e
    rw [List.foldl_cons, List.foldl_cons]
    cases hstat : stat (pathJoin rootPath a) with
    | isDir =>
      cases hdb : dbOk a with
      | true =>
        simp only [processItem, stepCatalog, hstat, hdb, if_true]
        exact ih _ _ _
      | false =>
        simp only [processItem, stepCatalog, hstat, hdb, Bool.false_eq_true, if_false]
        exact ih _ _ _
    | isFile =>
      simp only [processItem, stepCatalog, hstat]
      exact ih _ _ _
    | statError =>
      simp only [processItem, stepCatalog, hstat]
      exact ih _ _ _

/-- A nonempty filtered lookup means some row matches. -/
theorem any_of_filterHead (c : List CatEntry) (key : CatEntry → Bool)
    (e0 : CatEntry) (h : (c.filter key).head? = some e0) : c.any key = true := by
  cases hfe : c.filter key with
  | nil => rw [hfe] at h; simp at h
  | cons x xs =>
    have hx : x ∈ c.filter key := by rw [hfe]; exact List.mem_cons_self x xs
    rcases List.mem_filter.mp hx with ⟨hxc, hkey⟩
    exact List.any_eq_true.mpr ⟨x, hxc, hkey⟩

/-- After overwriting every row of code `cod`, the first row of that
code is the fresh row (given some row of that code exists). -/
theorem filterHead_map_overwrite (cod caminho : String) (t : Nat) :
    ∀ c : List CatEntry, c.any (fun e => e.cod_peca == cod) = true →
    ((c.map (fun e => if e.cod_peca == cod then (⟨cod, caminho, t⟩ : CatEntry) else e)).filter
      (fun e => e.cod_peca == cod)).head? = some ⟨cod, caminho, t⟩ := by
  intro c
  induction c with
  | nil => intro h; simp at h
  | cons u us ih =>
    intro hany
    by_cases hu : u.cod_peca = cod
    · have hfu : (if u.cod_peca == cod then (⟨cod, caminho, t⟩ : CatEntry) else u)
          = ⟨cod, caminho, t⟩ := by simp [hu]
      rw [List.map_cons, hfu, List.filter_cons]
      simp
    · have hpu : (u.cod_peca == cod) = false := by simp [hu]
      have hfu : (if u.cod_peca == cod then (⟨cod, caminho, t⟩ : CatEntry) else u) = u := by
        simp [hu]
      have hany' : us.any (fun e => e.cod_peca == cod) = true := by
        rw [List.any_cons, hpu, Bool.false_or] at hany
        exact hany
      rw [List.map_cons, hfu, List.filter_cons, hpu]
      simp only [Bool.false_eq_true, if_false]
      exact ih hany'

/-- Appending a fresh row for an absent code makes it the first row of
that code. -/
theorem filterHead_append_new (cod caminho : String) (t : Nat) :
    ∀ c : List CatEntry, c.any (fun e => e.cod_peca == cod) = false →
    ((c ++ [(⟨cod, caminho, t⟩ : CatEntry)]).filter
      (fun e => e.cod_peca == cod)).head? = some ⟨cod, caminho, t⟩ := by
  intro c
  induction c with
  | nil => intro _; simp [List.filter_cons]
  | cons u us ih =>
    intro hany
    rw [List.any_cons] at hany
    have hpu : (u.cod_peca == cod) = false := by
      cases hq : u.cod_peca == cod
      · rfl
      · rw [hq] at hany; simp at hany
    have hany' : us.any (fun e => e.cod_peca == cod) = false := by
      rw [hpu, Bool.false_or] at hany
      exact hany
    rw [List.cons_append, List.filter_cons, hpu]
    simp only [Bool.false_eq_true, if_false]
    exact ih hany'

/-- The first row of the upserted code is the fresh row. -/
theorem filterHead_upsert_self (c : List CatEntry) (cod caminho : String) (t : Nat) :
    ((upsertEntry c cod caminho t).filter (fun e => e.cod_peca == cod)).head?
      = some ⟨cod, caminho, t⟩ := by
  unfold upsertEntry
  cases hany : c.any (fun e => e.cod_peca == cod) with
  | true =>
    simp only [eq_self_iff_true, if_true]
    exact filterHead_map_overwrite cod caminho t c hany
  | false =>
    simp only [Bool.false_eq_true, if_false]
    exact filterHead_append_new cod caminho t c hany

/-- Overwriting the rows of code `cod` leaves the rows of any other
code untouched. -/
theorem filter_map_overwrite_other (cod caminho : String) (t : Nat)
    (cod' : String) (h : cod' ≠ cod) :
    ∀ c : List CatEntry,
    (c.map (fun e => if e.cod_peca == cod then (⟨cod, caminho, t⟩ : CatEntry) else e)).filter
      (fun e => e.cod_peca == cod') = c.filter (fun e => e.cod_peca == cod') := by
  intro c
  induction c with
  | nil => rfl
  | cons u us ih =>
    by_cases hu : u.cod_peca = cod
    · have hfu : (if u.cod_peca == cod then (⟨cod, caminho, t⟩ : CatEntry) else u)
          = ⟨cod, caminho, t⟩ := by simp [hu]
      have hnew : ((⟨cod, caminho, t⟩ : CatEntry).cod_peca == cod') = false := by
        simp [Ne.symm h]
      have hold : (u.cod_peca == cod') = false := by
        simp [hu, Ne.symm h]
      rw [List.map_cons, hfu, List.filter_cons, hnew, List.filter_cons, hold]
      simp only [Bool.false_eq_true, if_false]
      exact ih
    · have hfu : (if u.cod_peca == cod then (⟨cod, caminho, t⟩ : CatEntry) else u) = u := by
        simp [hu]
      rw [List.map_cons, hfu, List.filter_cons, List.filter_cons]
      cases hq : u.cod_peca == cod'
      · simp only [Bool.false_eq_true, if_false]
        exact ih
      · simp only [if_true]
        rw [ih]

/-- Upserting one code leaves the lookup of every other code
unchanged. -/
theorem filterHead_upsert_other (c : List CatEntry) (cod caminho : String)
    (t : Nat) (cod' : String) (h : cod' ≠ cod) :
    ((upsertEntry c cod caminho t).filter (fun e => e.cod_peca == cod')).head?
      = ((c.filter (fun e => e.cod_peca == cod')).head?) := by
  unfold upsertEntry
  cases hany : c.any (fun e => e.cod_peca == cod) with
  | true =>
    simp only [eq_self_iff_true, if_true]
    rw [filter_map_overwrite_other cod caminho t cod' h c]
  | false =>
    simp only [Bool.false_eq_true, if_false]
    rw [List.filter_append]
    have hone : ([(⟨cod, caminho, t⟩ : CatEntry)].filter
        (fun e => e.cod_peca == cod')) = [] := by
      simp [List.filter_cons, Ne.symm h]
    rw [hone, List.append_nil]

/-- The code column after an upsert: unchanged when the code was
present, extended by the code when it was absent. -/
theorem codes_upsertEntry (c : List CatEntry) (cod caminho : String) (t : Nat) :
    (upsertEntry c cod caminho t).map (fun e => e.cod_peca) =
      if c.any (fun e => e.cod_peca == cod) then c.map (fun e => e.cod_peca)
      else c.map (fun e => e.cod_peca) ++ [cod] := by
  unfold upsertEntry
  cases hany : c.any (fun e => e.cod_peca == cod) with
  | true =>
    simp only [eq_self_iff_true, if_true, List.map_map]
    apply List.map_congr_left
    intro e he
    by_cases hc : e.cod_peca = cod
    · simp [hc]
    · simp [hc]
  | false =>
    simp only [Bool.false_eq_true, if_false, List.map_append]
    rfl

/-- The code column membership test of a catalog as the row test used
by the upsert. -/
theorem any_code_eq_false_iff (c : List CatEntry) (cod : String) :
    c.any (fun e => e.cod_peca == cod) = false ↔
      cod ∉ c.map (fun e => e.cod_peca) := by
  rw [Bool.eq_false_iff]
  simp only [ne_eq, List.any_eq_true, beq_iff_eq, List.mem_map, not_exists, not_and]

/-- An upsert keeps the code column duplicate-free. -/
theorem nodup_codes_upsertEntry (c : List CatEntry) (cod caminho : String)
    (t : Nat) (h : (c.map (fun e => e.cod_peca)).Nodup) :
    ((upsertEntry c cod caminho t).map (fun e => e.cod_peca)).Nodup := by
  rw [codes_upsertEntry]
  cases hany : c.any (fun e => e.cod_peca == cod) with
  | true =>
    simp only [eq_self_iff_true, if_true]
    exact h
  | false =>
    simp only [Bool.false_eq_true, if_false]
    rw [List.nodup_append]
    exact ⟨h, List.nodup_singleton cod,
      by simpa using (any_code_eq_false_iff c cod).mp hany⟩

/-- An indexer run keeps the code column duplicate-free. -/
theorem foldl_stepCatalog_nodup (rootPath : String) (stat : String → StatResult)
    (dbOk : String → Bool) (t : Nat) :
    ∀ (items : List String) (c : List CatEntry),
    (c.map (fun e => e.cod_peca)).Nodup →
    ((items.foldl (stepCatalog rootPath stat dbOk t) c).map (fun e => e.cod_peca)).Nodup := by
  intro items
  induction items with
  | nil => intro c h; exact h
  | cons a as ih =>
    intro c h
    rw [List.foldl_cons]
    apply ih
    unfold stepCatalog
    cases hstat : stat (pathJoin rootPath a) with
    | isDir =>
      cases hdb : dbOk a with
      | true => exact nodup_codes_upsertEntry c a (pathJoin rootPath a) t h
      | false => exact h
    | isFile => exact h
    | statError => exact h

/-- Processing items of other names never changes the lookup of a
code. -/
theorem foldl_stepCatalog_notmem (rootPath : String) (stat : String → StatResult)
    (dbOk : String → Bool) (t : Nat) :
    ∀ (items : List String) (c : List CatEntry) (cod : String), cod ∉ items →
    ((items.foldl (stepCatalog rootPath stat dbOk t) c).filter
      (fun e => e.cod_peca == cod)).head? =
    ((c.filter (fun e => e.cod_peca == cod)).head?) := by
  intro items
  induction items with
  | nil => intro c cod _; rfl
  | cons a as ih =>
    intro c cod hnot
    have hne : cod ≠ a := fun hc => hnot (hc ▸ List.mem_cons_self a as)
    have hnas : cod ∉ as := fun hc => hnot (List.mem_cons_of_mem a hc)
    rw [List.foldl_cons, ih _ cod hnas]
    unfold stepCatalog
    cases hstat : stat (pathJoin rootPath a) with
    | isDir =>
      cases hdb : dbOk a with
      | true => exact filterHead_upsert_other c a (pathJoin rootPath a) t cod hne
      | false => rfl
    | isFile => rfl
    | statError => rfl

/-- After a run, every directory entry of the listing whose store
upsert succeeds is looked up at its joined path, stamped with the run
time. -/
theorem foldl_stepCatalog_paths (rootPath : String) (stat : String → StatResult)
    (dbOk : String → Bool) (t : Nat) :
    ∀ (items : List String) (c : List CatEntry) (name : String), name ∈ items →
    stat (pathJoin rootPath name) = .isDir → dbOk name = true →
    ((items.foldl (stepCatalog rootPath stat dbOk t) c).filter
      (fun e => e.cod_peca == name)).head? =
      some ⟨name, pathJoin rootPath name, t⟩ := by
  intro items
  induction items with
  | nil => intro c name hmem; exact absurd hmem (List.not_mem_nil name)
  | cons a as ih =>
    intro c name hmem hstat hdb
    rw [List.foldl_cons]
    by_cases hin : name ∈ as
    · exact ih _ name hin hstat hdb
    · have hna : name = a := by
        rcases List.mem_cons.mp hmem with h | h
        · exact h
        · exact absurd h hin
      subst hna
      rw [foldl_stepCatalog_notmem rootPath stat dbOk t as _ name hin]
      unfold stepCatalog
      rw [hstat, hdb]
      simp only [if_true]
      exact filterHead_upsert_self c name (pathJoin rootPath name) t

/-- Re-running the indexer steps over a catalog that already maps every
directory entry of the listing to its joined path changes no code and
no path, only timestamps (to the new run time). -/
theorem foldl_stepCatalog_stable (rootPath : String) (stat : String → StatResult)
    (dbOk : String → Bool) (t2 : Nat) :
    ∀ (items : List String) (c c1 : List CatEntry),
    (∀ name ∈ items, stat (pathJoin rootPath name) = .isDir → dbOk name = true →
      ((c1.filter (fun e => e.cod_peca == name)).head?).map (fun e => e.caminho_nas) =
        some (pathJoin rootPath name)) →
    (c.map (fun e => e.cod_peca) = c1.map (fun e => e.cod_peca)) →
    (∀ cod, ((c.filter (fun e => e.cod_peca == cod)).head?).map (fun e => e.caminho_nas) =
            ((c1.filter (fun e => e.cod_peca == cod)).head?).map (fun e => e.caminho_nas)) →
    (∀ cod, ((c.filter (fun e => e.cod_peca == cod)).head?).map (fun e => e.data_indexacao) =
            ((c1.filter (fun e => e.cod_peca == cod)).head?).map (fun e => e.data_indexacao) ∨
            ((c.filter (fun e => e.cod_peca == cod)).head?).map (fun e => e.data_indexacao) =
              some t2) →
    ((items.foldl (stepCatalog rootPath stat dbOk t2) c).map (fun e => e.cod_peca) =
      c1.map (fun e => e.cod_peca)) ∧
    (∀ cod, (((items.foldl (stepCatalog rootPath stat dbOk t2) c).filter
          (fun e => e.cod_peca == cod)).head?).map (fun e => e.caminho_nas) =
        ((c1.filter (fun e => e.cod_peca == cod)).head?).map (fun e => e.caminho_nas)) ∧
    (∀ cod, (((items.foldl (stepCatalog rootPath stat dbOk t2) c).filter
          (fun e => e.cod_peca == cod)).head?).map (fun e => e.data_indexacao) =
        ((c1.filter (fun e => e.cod_peca == cod)).head?).map (fun e => e.data_indexacao) ∨
        (((items.foldl (stepCatalog rootPath stat dbOk t2) c).filter
          (fun e => e.cod_peca == cod)).head?).map (fun e => e.data_indexacao) = some t2) := by
  intro items
  induction items with
  | nil =>
    intro c c1 _ hcodes hfind hts
    exact ⟨hcodes, hfind, hts⟩
  | cons a as ih =>
    intro c c1 hpath hcodes hfind hts
    rw [List.foldl_cons]
    have hpath' : ∀ name ∈ as, stat (pathJoin rootPath name) = .isDir →
        dbOk name = true →
        ((c1.filter (fun e => e.cod_peca == name)).head?).map (fun e => e.caminho_nas) =
          some (pathJoin rootPath name) :=
      fun name hn => hpath name (List.mem_cons_of_mem a hn)
    cases hstat : stat (pathJoin rootPath a) with
    | isDir =>
      cases hdb : dbOk a with
      | true =>
        have hstep : stepCatalog rootPath stat dbOk t2 c a =
            upsertEntry c a (pathJoin rootPath a) t2 := by
          unfold stepCatalog
          rw [hstat, hdb]
          simp only [if_true]
        rw [hstep]
        have hc1a : ((c1.filter (fun e => e.cod_peca == a)).head?).map
            (fun e => e.caminho_nas) = some (pathJoin rootPath a) :=
          hpath a (List.mem_cons_self a as) hstat hdb
        have hca : ((c.filter (fun e => e.cod_peca == a)).head?).map
            (fun e => e.caminho_nas) = some (pathJoin rootPath a) := by
          rw [hfind a]; exact hc1a
        rcases Option.map_eq_some'.mp hca with ⟨e0, he0, hpe0⟩
        have hany : c.any (fun e => e.cod_peca == a) = true :=
          any_of_filterHead c _ e0 he0
        apply ih
        · exact hpath'
        · rw [codes_upsertEntry]
          rw [if_pos hany]
          exact hcodes
        · intro cod
          by_cases hc : cod = a
          · subst hc
            rw [filterHead_upsert_self]
            rw [hc1a]
            rfl
          · rw [filterHead_upsert_other c a (pathJoin rootPath a) t2 cod hc]
            exact hfind cod
        · intro cod
          by_cases hc : cod = a
          · subst hc
            right
            rw [filterHead_upsert_self]
            rfl
          · rw [filterHead_upsert_other c a (pathJoin rootPath a) t2 cod hc]
            exact hts cod
      | false =>
        have hstep : stepCatalog rootPath stat dbOk t2 c a = c := by
          unfold stepCatalog
          rw [hstat, hdb]
          simp only [Bool.false_eq_true, if_false]
        rw [hstep]
        exact ih c c1 hpath' hcodes hfind hts
    | isFile =>
      have hstep : stepCatalog rootPath stat dbOk t2 c a = c := by
        unfold stepCatalog
        rw [hstat]
      rw [hstep]
      exact ih c c1 hpath' hcodes hfind hts
    | statError =>
      have hstep : stepCatalog rootPath stat dbOk t2 c a = c := by
        unfold stepCatalog
        rw [hstat]
      rw [hstep]
      exact ih c c1 hpath' hcodes hfind hts

/-- C9: running the indexer a second time over the same unchanged root
listing is idempotent on the Catalog Index: the code column and every
directory-path lookup are unchanged, the code column stays
duplicate-free (exactly one path per code, the upsert having
overwritten any prior row), and any timestamp change is a refresh to
the second run time. -/
theorem indexer_rerun_idempotent
    (rootPath : String) (stat : String → StatResult) (dbOk : String → Bool)
    (items : List String) (t1 t2 : Nat) (c0 : List CatEntry)
    (hnodup : (c0.map (fun e => e.cod_peca)).Nodup) :
    ((startIndexing rootPath stat dbOk items t2
        (startIndexing rootPath stat dbOk items t1 c0).1).1.map (fun e => e.cod_peca) =
      (startIndexing rootPath stat dbOk items t1 c0).1.map (fun e => e.cod_peca)) ∧
    (∀ cod, findCaminho (startIndexing rootPath stat dbOk items t2
        (startIndexing rootPath stat dbOk items t1 c0).1).1 cod =
      findCaminho (startIndexing rootPath stat dbOk items t1 c0).1 cod) ∧
    (((startIndexing rootPath stat dbOk items t2
        (startIndexing rootPath stat dbOk items t1 c0).1).1.map
          (fun e => e.cod_peca)).Nodup) ∧
    (∀ cod, findTs (startIndexing rootPath stat dbOk items t2
        (startIndexing rootPath stat dbOk items t1 c0).1).1 cod =
      findTs (startIndexing rootPath stat dbOk items t1 c0).1 cod ∨
      findTs (startIndexing rootPath stat dbOk items t2
        (startIndexing rootPath stat dbOk items t1 c0).1).1 cod = some t2) := by
  have h1 : (startIndexing rootPath stat dbOk items t1 c0).1 =
      items.foldl (stepCatalog rootPath stat dbOk t1) c0 :=
    foldl_processItem_catalog rootPath stat dbOk t1 items c0 0 0
  have h2 : (startIndexing rootPath stat dbOk items t2
      (startIndexing rootPath stat dbOk items t1 c0).1).1 =
      items.foldl (stepCatalog rootPath stat dbOk t2)
        (startIndexing rootPath stat dbOk items t1 c0).1 :=
    foldl_processItem_catalog rootPath stat dbOk t2 items _ 0 0
  have hpath : ∀ name ∈ items, stat (pathJoin rootPath name) = .isDir →
      dbOk name = true →
      ((((startIndexing rootPath stat dbOk items t1 c0).1).filter
        (fun e => e.cod_peca == name)).head?).map (fun e => e.caminho_nas) =
        some (pathJoin rootPath name) := by
    intro name hn hs hd
    rw [h1, foldl_stepCatalog_paths rootPath stat dbOk t1 items c0 name hn hs hd]
    rfl
  rcases foldl_stepCatalog_stable rootPath stat dbOk t2 items
      (startIndexing rootPath stat dbOk items t1 c0).1
      (startIndexing rootPath stat dbOk items t1 c0).1
      hpath rfl (fun _ => rfl) (fun _ => Or.inl rfl) with ⟨hcodes, hfind, hts⟩
  refine ⟨?_, ?_, ?_, ?_⟩
  · rw [h2]
    exact hcodes
  · intro cod
    unfold findCaminho
    rw [h2]
    exact hfind cod
  · rw [h2]
    apply foldl_stepCatalog_nodup
    rw [h1]
    exact foldl_stepCatalog_nodup rootPath stat dbOk t1 items c0 hnodup
  · intro cod
    unfold findTs
    rw [h2]
    exact hts cod

/-- Witness for C9 at a concrete empty starting index and a one-entry
listing. -/
theorem indexer_rerun_idempotent_witness :
    (([] : List CatEntry).map (fun e => e.cod_peca)).Nodup ∧
    (((startIndexing "/nas" (fun _ => .isDir) (fun _ => true) ["PN-100"] 2
        (startIndexing "/nas" (fun _ => .isDir) (fun _ => true) ["PN-100"] 1 []).1).1.map
          (fun e => e.cod_peca) =
      (startIndexing "/nas" (fun _ => .isDir) (fun _ => true) ["PN-100"] 1 []).1.map
        (fun e => e.cod_peca)) ∧
    (∀ cod, findCaminho (startIndexing "/nas" (fun _ => .isDir) (fun _ => true) ["PN-100"] 2
        (startIndexing "/nas" (fun _ => .isDir) (fun _ => true) ["PN-100"] 1 []).1).1 cod =
      findCaminho (startIndexing "/nas" (fun _ => .isDir) (fun _ => true) ["PN-100"] 1 []).1 cod) ∧
    (((startIndexing "/nas" (fun _ => .isDir) (fun _ => true) ["PN-100"] 2
        (startIndexing "/nas" (fun _ => .isDir) (fun _ => true) ["PN-100"] 1 []).1).1.map
          (fun e => e.cod_peca)).Nodup) ∧
    (∀ cod, findTs (startIndexing "/nas" (fun _ => .isDir) (fun _ => true) ["PN-100"] 2
        (startIndexing "/nas" (fun _ => .isDir) (fun _ => true) ["PN-100"] 1 []).1).1 cod =
      findTs (startIndexing "/nas" (fun _ => .isDir) (fun _ => true) ["PN-100"] 1 []).1 cod ∨
      findTs (startIndexing "/nas" (fun _ => .isDir) (fun _ => true) ["PN-100"] 2
        (startIndexing "/nas" (fun _ => .isDir) (fun _ => true) ["PN-100"] 1 []).1).1 cod =
        some 2)) :=
  ⟨by simp,
   indexer_rerun_idempotent "/nas" (fun _ => .isDir) (fun _ => true) ["PN-100"] 1 2 []
     (by simp)⟩

end PhotoCatalog
